import Mathlib

/-!
Verification development for go-portable: a shallow embedding of the
program's main.go (the revision with isFatal), the current main.go
(modes and first-class filtering), and the earlier revision whose
syntax loop classifies stderr, together with theorems settling the
specification claims against these definitions.
-/

namespace GoPortable

/-- Byte/character strings are modelled as lists of characters. -/
abbrev Str := List Char

/-- strings.Split(s, string(sep)) for a one-character separator:
split at every occurrence of sep, keeping empty fields; the result
always has (number of separators + 1) fields. -/
def splitChar (sep : Char) : Str → List Str
  | [] => [[]]
  | c :: rest =>
    if c = sep then [] :: splitChar sep rest
    else
      match splitChar sep rest with
      | [] => [[c]]
      | f :: fs => (c :: f) :: fs

/-- bufio.ScanLines strips one trailing carriage return from a line. -/
def dropCR (l : Str) : Str :=
  if l.getLast? = some '\r' then l.dropLast else l

/-- bufio.Scanner with bufio.ScanLines over the whole input: tokens are
the newline-separated lines (carriage-return stripped); a final newline
produces no empty trailing token, and empty input produces no tokens. -/
def scanLines (s : Str) : List Str :=
  if s.isEmpty then []
  else
    (if s.getLast? = some '\n' then (splitChar '\n' s).dropLast
     else splitChar '\n' s).map dropCR

/-- The platform struct: an os/arch pair. -/
structure platform where
  os : Str
  arch : Str
deriving DecidableEq, Repr

/-- strings.Split(line, "/"). -/
def splitSlash (line : Str) : List Str := splitChar '/' line

/-- First class ports (main.go table), as the set of canonical
os/arch line strings; membership models the Go map lookup. -/
def firstClass : List Str :=
  ["linux/amd64".toList, "linux/386".toList, "linux/arm".toList,
   "linux/arm64".toList, "darwin/amd64".toList, "windows/amd64".toList,
   "windows/386".toList]

/-- The error returned by godistlist on a malformed line. -/
inductive DistErr
  | invalidOutput (line : Str)
deriving DecidableEq, Repr

/-- The canonical os/arch text form of a platform. -/
def portString (p : platform) : Str := p.os ++ '/' :: p.arch

/-- The parsing loop of godistlist (current main.go): for each line,
split on "/"; exactly two fields are required, else the enumeration
fails with invalidOutput line; when primary is set, lines not in the
firstClass table are skipped; surviving lines append one platform in
order. -/
def distParse (primary : Bool) : List Str → Except DistErr (List platform)
  | [] => .ok []
  | line :: rest =>
    match splitSlash line with
    | [fos, farch] =>
      if primary && !(firstClass.contains line) then distParse primary rest
      else
        match distParse primary rest with
        | .error e => .error e
        | .ok list => .ok (⟨fos, farch⟩ :: list)
    | _ => .error (.invalidOutput line)

/-- godistlist applied to the captured standard output of the
authority command "go tool dist list". -/
def godistlist (primary : Bool) (stdout : Str) : Except DistErr (List platform) :=
  distParse primary (scanLines stdout)

/-- One external command invocation as observed at the process
boundary: whether the process could be started, its exit status, and
the captured standard error bytes. -/
structure InvocationResult where
  started : Bool
  exitStatus : Nat
  stderr : Str
deriving DecidableEq

/-- The dynamic type of the wrapped error: exec.Error (the command
could not start) or exec.ExitError (it ran and exited non-zero). -/
inductive ProcErrKind
  | execError
  | exitError (code : Nat)
deriving DecidableEq, Repr

/-- invoke.Error: the wrapped cause plus the captured stderr. -/
structure InvokeError where
  kind : ProcErrKind
  stderr : Str
deriving DecidableEq

/-- Modelled from the spec: internal/invoke (not under src/), §4.1
Process Invoker — Run returns no error when the process started and
exited 0; a LaunchFailure (exec.Error) when it could not start; and
otherwise an ExitError carrying the exit status, with the captured
standard error attached to the invoke.Error. -/
def invokeRun (r : InvocationResult) : Option InvokeError :=
  if r.started = false then some ⟨.execError, []⟩
  else if r.exitStatus = 0 then none
  else some ⟨.exitError r.exitStatus, r.stderr⟩

/-- govet of the current main.go, as a function of the observed
invocation: exec.Error is returned as a fatal error; exec.ExitError
returns the captured stderr as the diagnostic message; a clean exit
returns no message and no error. -/
def govet (r : InvocationResult) : Except InvokeError (Option Str) :=
  match invokeRun r with
  | none => .ok none
  | some cmderr =>
    match cmderr.kind with
    | .execError => .error cmderr
    | .exitError _ => .ok (some cmderr.stderr)

/-- The literal "package". -/
def pkgLiteral : Str := "package".toList

/-- isFatal from main.go (the revision that classifies stderr): the
"package" prefix returns false; otherwise the first stderr byte is
read — none models the Go index-out-of-range panic when stderr is
empty — and both the # branch and the fall-through return false. -/
def isFatal (stderr : Str) : Option Bool :=
  if pkgLiteral.isPrefixOf stderr then some false
  else
    match stderr with
    | [] => none
    | c :: _ => if c = '#' then some false else some false

/-- The stderr test inside the syntax loop of the earlier revision:
true means the error is returned (fatal, run aborts), false means it
is rendered as a per-platform diagnostic; none models the
index-out-of-range panic on empty stderr. -/
def stderrFatalCheck (stderr : Str) : Option Bool :=
  match stderr with
  | [] => none
  | c :: _ => some (c != '#')

/-- run from the current main.go, with the per-platform tool call
(govet or gobuild with the patterns fixed) abstracted as a function:
a fatal error aborts and is returned; a nil message continues without
recording; a diagnostic message is recorded as a (platform, message)
pair in matrix order. -/
def run (platforms : List platform)
    (tool : platform → Except InvokeError (Option Str)) :
    Except InvokeError (List (platform × Str)) :=
  match platforms with
  | [] => .ok []
  | sys :: rest =>
    match tool sys with
    | .error e => .error e
    | .ok none => run rest tool
    | .ok (some msg) =>
      match run rest tool with
      | .error e => .error e
      | .ok report => .ok ((sys, msg) :: report)

/-- The two recognized -mode values. -/
def modeVet : Str := "vet".toList

/-- The build mode string. -/
def modeBuild : Str := "build".toList

/-- The mode switch in main: only "vet" and "build" are accepted. -/
def modeValid (mode : Str) : Bool := mode == modeVet || mode == modeBuild

/-- The process exit status of main in the current main.go: an invalid
-mode exits 2 with a usage message before godistlist is invoked; a
failure of the authority command, a malformed authority output, or a
fatal run error exit 1 via log.Fatal; otherwise the process exits 0
(run returns nil whenever no fatal error occurred, so diagnostics do
not change the exit status). -/
def mainExit (mode : Str) (primary : Bool) (authority : Except Unit Str)
    (tool : platform → Except InvokeError (Option Str)) : Nat :=
  if modeValid mode = false then 2
  else
    match authority with
    | .error _ => 1
    | .ok stdout =>
      match godistlist primary stdout with
      | .error _ => 1
      | .ok platforms =>
        match run platforms tool with
        | .error _ => 1
        | .ok _ => 0

/-- os.DevNull on unix. -/
def os_DevNull : Str := "/dev/null".toList

/-- The argument list built by gobuild: the build subcommand, the -o
flag pointing at the discard location, then the patterns verbatim. -/
def gobuildArgs (patterns : List Str) : List Str :=
  ["build".toList, "-o".toList, os_DevNull] ++ patterns

/-- The GOOS environment entry. -/
def goosVar (o : Str) : Str := ("GOOS=".toList) ++ o

/-- The GOARCH environment entry. -/
def goarchVar (a : Str) : Str := ("GOARCH=".toList) ++ a

/-- The CGO_ENABLED=0 environment entry. -/
def cgoDisabled : Str := "CGO_ENABLED=0".toList

/-- The environment built by gobuild: the inherited environment
extended with GOOS, GOARCH from the platform and CGO_ENABLED=0. -/
def gobuildEnv (environ : List Str) (sys : platform) : List Str :=
  environ ++ [goosVar sys.os, goarchVar sys.arch, cgoDisabled]

/-- The report run would produce when no tool call is fatal: the
(platform, message) pairs of the diagnostic outcomes, in matrix
order. -/
def reportOf (platforms : List platform)
    (tool : platform → Except InvokeError (Option Str)) :
    List (platform × Str) :=
  platforms.filterMap (fun p =>
    match tool p with
    | .ok (some m) => some (p, m)
    | _ => none)

/-- The platform a well-formed two-field line denotes. -/
def lineToPlat (line : Str) : platform :=
  match splitSlash line with
  | [a, b] => ⟨a, b⟩
  | _ => ⟨[], []⟩


/-! Helper lemmas -/

/-- splitChar never returns the empty list of fields. -/
theorem splitChar_ne_nil (sep : Char) : ∀ l : Str, splitChar sep l ≠ []
  | [] => by simp [splitChar]
  | c :: rest => by
    unfold splitChar
    by_cases hc : c = sep
    · simp [hc]
    · simp only [if_neg hc]
      cases h : splitChar sep rest <;> simp

/-- A one-field split means the separator does not occur: the line is the field. -/
theorem splitChar_single (sep : Char) : ∀ (line b : Str), splitChar sep line = [b] → line = b
  | [], b => by simp [splitChar]
  | c :: rest, b => by
    unfold splitChar
    by_cases hc : c = sep
    · simp only [if_pos hc]
      intro h
      have := splitChar_ne_nil sep rest
      simp at h
      exact absurd h.2 this
    · simp only [if_neg hc]
      cases h : splitChar sep rest with
      | nil => exact absurd h (splitChar_ne_nil sep rest)
      | cons f fs =>
        intro h2
        simp at h2
        obtain ⟨hb, hfs⟩ := h2
        subst hfs
        have := splitChar_single sep rest f h
        subst this
        exact hb

/-- A two-field split reconstructs the line around one separator. -/
theorem splitChar_pair (sep : Char) :
    ∀ (line a b : Str), splitChar sep line = [a, b] → line = a ++ sep :: b
  | [], a, b => by simp [splitChar]
  | c :: rest, a, b => by
    unfold splitChar
    by_cases hc : c = sep
    · simp only [if_pos hc]
      intro h
      simp at h
      obtain ⟨ha, hrest⟩ := h
      subst ha
      have := splitChar_single sep rest b hrest
      subst this
      simp [hc]
    · simp only [if_neg hc]
      cases h : splitChar sep rest with
      | nil => exact absurd h (splitChar_ne_nil sep rest)
      | cons f fs =>
        intro h2
        simp at h2
        obtain ⟨ha, hfs⟩ := h2
        subst hfs
        have := splitChar_pair sep rest f b h
        subst this
        simp [← ha]

/-- When every tool call returns without a fatal error, run succeeds with the
diagnostics of the platforms, in matrix order. -/
theorem run_all_ok : ∀ (platforms : List platform)
    (tool : platform → Except InvokeError (Option Str)),
    (∀ p ∈ platforms, ∃ v, tool p = Except.ok v) →
    run platforms tool = .ok (reportOf platforms tool)
  | [], _ => fun _ => rfl
  | sys :: rest, tool => by
    intro h
    obtain ⟨v, hv⟩ := h sys (List.mem_cons_self sys rest)
    have ih := run_all_ok rest tool (fun p hp => h p (List.mem_cons_of_mem _ hp))
    cases v with
    | none => simp [run, reportOf, hv, ih]
    | some m => simp [run, reportOf, hv, ih]

/-- A fatal tool outcome after a non-fatal prefix makes run return that error,
independently of the platforms that follow it. -/
theorem run_fatal_at : ∀ (pre : List platform) (p : platform) (post : List platform)
    (tool : platform → Except InvokeError (Option Str)) (e : InvokeError),
    (∀ q ∈ pre, ∃ v, tool q = Except.ok v) →
    tool p = .error e →
    run (pre ++ p :: post) tool = .error e
  | [], p, post, tool, e => by
    intro _ hp
    simp [run, hp]
  | q :: pre, p, post, tool, e => by
    intro hpre hp
    obtain ⟨v, hv⟩ := hpre q (List.mem_cons_self q pre)
    have ih := run_fatal_at pre p post tool e (fun r hr => hpre r (List.mem_cons_of_mem _ hr)) hp
    cases v with
    | none => simp [run, hv, ih]
    | some m => simp [run, hv, ih]

/-- Lines whose split has exactly two fields all parse, one platform per line,
in order. -/
theorem distParse_all_two : ∀ lines : List Str,
    (∀ l ∈ lines, (splitSlash l).length = 2) →
    distParse false lines = .ok (lines.map lineToPlat)
  | [] => fun _ => rfl
  | line :: rest => by
    intro h
    have hl := h line (List.mem_cons_self line rest)
    have hrest := distParse_all_two rest (fun l hl2 => h l (List.mem_cons_of_mem _ hl2))
    cases hs : splitSlash line with
    | nil => simp [hs] at hl
    | cons a tail =>
      cases tail with
      | nil => simp [hs] at hl
      | cons b tail2 =>
        cases tail2 with
        | nil => simp [distParse, hs, hrest, lineToPlat]
        | cons c tail3 => simp [hs] at hl

/-- The first line whose split does not have exactly two fields fails the
whole enumeration with invalidOutput of that line. -/
theorem distParse_bad_line : ∀ (pre : List Str) (line : Str) (rest : List Str),
    (∀ l ∈ pre, (splitSlash l).length = 2) →
    (splitSlash line).length ≠ 2 →
    distParse false (pre ++ line :: rest) = .error (.invalidOutput line)
  | [], line, rest => by
    intro _ hline
    cases hs : splitSlash line with
    | nil => simp [distParse, hs]
    | cons a tail =>
      cases tail with
      | nil => simp [distParse, hs]
      | cons b tail2 =>
        cases tail2 with
        | nil => simp [hs] at hline
        | cons c tail3 => simp [distParse, hs]
  | q :: pre, line, rest => by
    intro hpre hline
    have hq := hpre q (List.mem_cons_self q pre)
    have ih := distParse_bad_line pre line rest (fun l hl => hpre l (List.mem_cons_of_mem _ hl)) hline
    cases hs : splitSlash q with
    | nil => simp [hs] at hq
    | cons a tail =>
      cases tail with
      | nil => simp [hs] at hq
      | cons b tail2 =>
        cases tail2 with
        | nil => simp [distParse, hs, ih]
        | cons c tail3 => simp [hs] at hq

/-- The primary filter of distParse is exactly a stable List.filter on the
canonical os/arch string, over the unfiltered parse. -/
theorem distParse_primary_filter : ∀ lines : List Str,
    distParse true lines =
      Except.map (List.filter (fun p => firstClass.contains (portString p)))
        (distParse false lines)
  | [] => rfl
  | line :: rest => by
    have ih := distParse_primary_filter rest
    cases hs : splitSlash line with
    | nil =>
      simp only [distParse, hs]
      rfl
    | cons a tail =>
      cases tail with
      | nil =>
        simp only [distParse, hs]
        rfl
      | cons b tail2 =>
        cases tail2 with
        | cons c tail3 =>
          simp only [distParse, hs]
          rfl
        | nil =>
          have hline : line = a ++ '/' :: b := splitChar_pair '/' line a b hs
          subst hline
          by_cases hmem : (a ++ '/' :: b) ∈ firstClass
          · cases hrest : distParse false rest with
            | error e => simp [distParse, hs, hmem, ih, hrest, Except.map]
            | ok l =>
              simp [distParse, hs, hmem, ih, hrest, Except.map, List.filter_cons, portString]
          · cases hrest : distParse false rest with
            | error e => simp [distParse, hs, hmem, ih, hrest, Except.map]
            | ok l =>
              simp [distParse, hs, hmem, ih, hrest, Except.map, List.filter_cons, portString]

/-! Claim theorems -/

/-- C1: the claim says a non-zero exit with empty captured stderr is classified
Fatal and aborts the run; on the code, isFatal instead reads the first stderr
byte out of bounds (modelled none, a Go panic), and the current main.go's govet
returns the empty stderr as a plain diagnostic so that run continues to the
remaining platforms (here the second platform is still processed). -/
theorem c1_empty_stderr_not_classified_fatal :
    isFatal [] = none ∧
    govet ⟨true, 1, []⟩ = .ok (some []) ∧
    run [⟨("linux".toList), ("amd64".toList)⟩, ⟨("windows".toList), ("arm".toList)⟩]
      (fun sys => if sys.os = ("linux".toList) then Except.ok (some []) else Except.ok (some ['x'])) =
      .ok [(⟨("linux".toList), ("amd64".toList)⟩, []), (⟨("windows".toList), ("arm".toList)⟩, ['x'])] :=
  ⟨rfl, rfl, rfl⟩

/-- C2: the claim says any other non-zero exit shape is Fatal; on the code,
isFatal never returns true (every branch, including the fall-through, returns
false or faults), so an unrecognized stderr such as "boom" is folded into a
per-target diagnostic by govet rather than carried as a fatal error. -/
theorem c2_unrecognized_stderr_not_fatal :
    (∀ s : Str, isFatal s = none ∨ isFatal s = some false) ∧
    isFatal ("boom".toList) = some false ∧
    govet ⟨true, 1, ("boom".toList)⟩ = .ok (some ("boom".toList)) := by
  refine ⟨?_, rfl, rfl⟩
  intro s
  unfold isFatal
  cases s with
  | nil => split <;> simp
  | cons c cs => by_cases hc : c = '#' <;> split <;> simp [hc]

/-- C3 counterexample: a run that completes without a fatal error and whose
report has one entry still exits 0 (run returns no error, and main only exits
non-zero through log.Fatal), contradicting the claimed exit status 1. -/
theorem c3_nonempty_report_exit_zero_cex :
    run [⟨("linux".toList), ("amd64".toList)⟩] (fun _ => Except.ok (some ("msg".toList))) =
      .ok [(⟨("linux".toList), ("amd64".toList)⟩, ("msg".toList))] ∧
    mainExit modeVet false (Except.ok ("linux/amd64\n".toList))
      (fun _ => Except.ok (some ("msg".toList))) = 0 :=
  ⟨rfl, rfl⟩

/-- C3 amended: every run that completes without a fatal error exits 0,
whether or not the report is empty; only usage errors and fatal aborts
produce a non-zero exit status. -/
theorem c3_nonfatal_run_exits_zero (mode : Str) (primary : Bool)
    (authority : Except Unit Str) (tool : platform → Except InvokeError (Option Str))
    (stdout : Str) (platforms : List platform) (report : List (platform × Str))
    (hm : modeValid mode = true) (ha : authority = Except.ok stdout)
    (hg : godistlist primary stdout = .ok platforms)
    (hr : run platforms tool = .ok report) :
    mainExit mode primary authority tool = 0 := by
  simp [mainExit, hm, ha, hg, hr]

/-- C3 amended, witness: a clean run over one platform exits 0. -/
theorem c3_nonfatal_run_exits_zero_witness :
    mainExit modeVet false (Except.ok ("darwin/arm64\n".toList)) (fun _ => Except.ok none) = 0 :=
  c3_nonfatal_run_exits_zero modeVet false _ _ ("darwin/arm64\n".toList)
    [⟨("darwin".toList), ("arm64".toList)⟩] [] (by decide) rfl rfl rfl

/-- C4 counterexample: the claim says a line must split into exactly two
non-empty fields and that empty lines are skipped; the code accepts
"linux/" (two fields, the second empty) as a platform, and an interior
empty line is not skipped but fails the enumeration as malformed. -/
theorem c4_empty_field_and_blank_line_cex :
    godistlist false ("linux/\n".toList) = .ok [⟨("linux".toList), []⟩] ∧
    godistlist false ("a/b\n\nc/d\n".toList) = .error (.invalidOutput []) :=
  ⟨rfl, rfl⟩

/-- C4 amended: each scanned line must split on the slash into exactly two
fields, which may be empty; every such line parses to one platform in order,
and the first line with any other number of fields (an empty line splits to
one field) fails the whole enumeration with that line; only the final
newline of the output contributes no line. -/
theorem c4_two_field_lines (stdout : Str) :
    ((∀ l ∈ scanLines stdout, (splitSlash l).length = 2) →
      godistlist false stdout = .ok ((scanLines stdout).map lineToPlat)) ∧
    (∀ (pre : List Str) (line : Str) (rest : List Str),
      scanLines stdout = pre ++ line :: rest →
      (∀ l ∈ pre, (splitSlash l).length = 2) →
      (splitSlash line).length ≠ 2 →
      godistlist false stdout = .error (.invalidOutput line)) := by
  constructor
  · intro h
    exact distParse_all_two (scanLines stdout) h
  · intro pre line rest hscan hpre hline
    unfold godistlist
    rw [hscan]
    exact distParse_bad_line pre line rest hpre hline

/-- C4 amended, witness: a two-line output parses in order, and an output
whose second line has one field fails with that line. -/
theorem c4_two_field_lines_witness :
    godistlist false ("a/b\nc/d".toList) = .ok ((scanLines ("a/b\nc/d".toList)).map lineToPlat) ∧
    godistlist false ("a/b\nxyz\nc/d\n".toList) = .error (.invalidOutput ("xyz".toList)) :=
  ⟨(c4_two_field_lines ("a/b\nc/d".toList)).1 (by decide),
   (c4_two_field_lines ("a/b\nxyz\nc/d\n".toList)).2 [("a/b".toList)] ("xyz".toList)
     [("c/d".toList)] (by decide) (by decide) (by decide)⟩

/-- C5: the orchestrator processes platforms in matrix order — when no tool
call is fatal, run succeeds with exactly the diagnostic (platform, message)
pairs in matrix order, each depending only on its own platform's outcome;
and when the tool is fatal at some platform after a non-fatal prefix, run
returns that error, with a result independent of every later platform. -/
theorem c5_orchestrator_order_and_abort (platforms : List platform)
    (tool : platform → Except InvokeError (Option Str)) :
    ((∀ p ∈ platforms, ∃ v, tool p = Except.ok v) →
      run platforms tool = .ok (reportOf platforms tool)) ∧
    (∀ (pre : List platform) (p : platform) (post : List platform) (e : InvokeError),
      platforms = pre ++ p :: post →
      (∀ q ∈ pre, ∃ v, tool q = Except.ok v) →
      tool p = .error e →
      run platforms tool = .error e) :=
  ⟨run_all_ok platforms tool,
   fun pre p post e hplat hpre hp => hplat ▸ run_fatal_at pre p post tool e hpre hp⟩

/-- C5 witness: a two-platform matrix with per-platform diagnostics reports
in order, and a fatal outcome at the second of three platforms aborts with
that error. -/
theorem c5_orchestrator_order_and_abort_witness :
    run [⟨("linux".toList), ("amd64".toList)⟩, ⟨("darwin".toList), ("arm64".toList)⟩]
      (fun sys => Except.ok (some sys.os)) =
      .ok (reportOf [⟨("linux".toList), ("amd64".toList)⟩, ⟨("darwin".toList), ("arm64".toList)⟩]
        (fun sys => Except.ok (some sys.os))) ∧
    run [⟨("linux".toList), ("amd64".toList)⟩, ⟨("js".toList), ("wasm".toList)⟩,
         ⟨("darwin".toList), ("arm64".toList)⟩]
      (fun sys => if sys.os = ("js".toList) then Except.error ⟨.execError, []⟩ else Except.ok none) =
      .error ⟨.execError, []⟩ := by
  constructor
  · exact (c5_orchestrator_order_and_abort _ _).1 (fun p _ => ⟨some p.os, rfl⟩)
  · refine (c5_orchestrator_order_and_abort _ _).2 [⟨("linux".toList), ("amd64".toList)⟩]
      ⟨("js".toList), ("wasm".toList)⟩ [⟨("darwin".toList), ("arm64".toList)⟩]
      ⟨.execError, []⟩ rfl ?_ rfl
    intro q hq
    simp only [List.mem_singleton] at hq
    subst hq
    exact ⟨none, rfl⟩

/-- C6: filtering to first-class ports is a stable subsequence — for every
authority output, the filtered enumeration is exactly List.filter by
membership of the canonical os/arch string in the firstClass table, applied
to the unfiltered enumeration (same error on the same malformed output). -/
theorem c6_first_class_stable_subsequence (stdout : Str) :
    godistlist true stdout =
      Except.map (List.filter (fun p => firstClass.contains (portString p)))
        (godistlist false stdout) :=
  distParse_primary_filter (scanLines stdout)

/-- C7: an invocation that exits 0 is clean regardless of the captured stderr
content — govet returns no message and no error — and a clean outcome leaves
the run's report exactly as if the platform were absent. -/
theorem c7_exit_zero_clean :
    (∀ s : Str, govet ⟨true, 0, s⟩ = .ok none) ∧
    (∀ (p : platform) (rest : List platform)
       (tool : platform → Except InvokeError (Option Str)),
      tool p = .ok none → run (p :: rest) tool = run rest tool) := by
  constructor
  · intro s
    rfl
  · intro p rest tool h
    simp [run, h]

/-- C7 witness: a zero exit with non-empty stderr is clean, and a clean first
platform contributes nothing to the run. -/
theorem c7_exit_zero_clean_witness :
    govet ⟨true, 0, ("warning: x".toList)⟩ = .ok none ∧
    run [⟨("linux".toList), ("amd64".toList)⟩] (fun _ => Except.ok none) =
      run [] (fun _ => Except.ok none) :=
  ⟨c7_exit_zero_clean.1 ("warning: x".toList),
   c7_exit_zero_clean.2 ⟨("linux".toList), ("amd64".toList)⟩ [] (fun _ => Except.ok none) rfl⟩

/-- C8: in build mode the arguments are the build subcommand, the -o flag
with the discard location, then the patterns verbatim (they are exactly the
suffix after the three fixed arguments), and the environment is the
inherited one extended with GOOS and GOARCH from the platform's fields and
CGO_ENABLED=0. -/
theorem c8_gobuild_args_and_env (patterns environ : List Str) (sys : platform) :
    gobuildArgs patterns = ("build".toList) :: ("-o".toList) :: os_DevNull :: patterns ∧
    (gobuildArgs patterns).drop 3 = patterns ∧
    gobuildEnv environ sys =
      environ ++ [("GOOS=".toList) ++ sys.os, ("GOARCH=".toList) ++ sys.arch,
                  ("CGO_ENABLED=0".toList)] ∧
    cgoDisabled ∈ gobuildEnv environ sys := by
  refine ⟨rfl, rfl, rfl, ?_⟩
  simp [gobuildEnv]

/-- C9: any -mode value other than vet and build makes main exit 2 with the
usage error, and the result does not depend on the authority command or the
verification tool — the enumeration is never consulted. -/
theorem c9_invalid_mode_rejected (mode : Str) (h : modeValid mode = false) :
    ∀ (primary : Bool) (a1 a2 : Except Unit Str)
      (t1 t2 : platform → Except InvokeError (Option Str)),
      mainExit mode primary a1 t1 = 2 ∧
      mainExit mode primary a1 t1 = mainExit mode primary a2 t2 := by
  intro primary a1 a2 t1 t2
  constructor
  · simp [mainExit, h]
  · simp [mainExit, h]

/-- C9 witness: the mode "fast" is rejected with exit 2, independently of the
authority output and the tool outcomes. -/
theorem c9_invalid_mode_rejected_witness :
    modeValid ("fast".toList) = false ∧
    (mainExit ("fast".toList) false (Except.ok ("linux/amd64\n".toList))
        (fun _ => Except.ok none) = 2 ∧
      mainExit ("fast".toList) false (Except.ok ("linux/amd64\n".toList))
          (fun _ => Except.ok none) =
        mainExit ("fast".toList) false (Except.error ())
          (fun _ => Except.error ⟨.execError, []⟩)) :=
  ⟨by decide,
   c9_invalid_mode_rejected ("fast".toList) (by decide) false
     (Except.ok ("linux/amd64\n".toList)) (Except.error ())
     (fun _ => Except.ok none) (fun _ => Except.error ⟨.execError, []⟩)⟩

/-- C10: the claim says the classifier is total with in-bounds byte accesses
even on empty stderr; on the code, both isFatal (main.go) and the stderr
check of the earlier syntax loop read byte 0 of an empty stderr out of
bounds (modelled none, a Go index-out-of-range panic), while every
non-empty stderr does produce an outcome. -/
theorem c10_classifier_faults_on_empty_stderr :
    isFatal [] = none ∧ stderrFatalCheck [] = none ∧
    ∀ (c : Char) (s : Str),
      (isFatal (c :: s)).isSome = true ∧ (stderrFatalCheck (c :: s)).isSome = true := by
  refine ⟨rfl, rfl, fun c s => ⟨?_, rfl⟩⟩
  unfold isFatal
  by_cases hc : c = '#' <;> split <;> simp [hc]

end GoPortable
